import Mathlib

/-!
Verification development for the `miles.py` web crawler.

The program's string-level code (URL resolution via `urllib.parse.urljoin`,
regex-based link extraction, filename derivation) is embedded over `List Char`,
matching Python string operations position by position.  The network and the
filesystem are passed explicitly: an HTTP response is an `Option Response`
(`none` models a transport error caught as `requests.exceptions.RequestException`),
and the filesystem is a map from paths to byte contents.
-/

namespace Miles

/-- Characters of a Python string.  All string code below works over
`List Char`. -/
abbrev Str := List Char

/-- Convert a Lean string literal to a `Str`. -/
def str (s : String) : Str := s.data

/-- Python prefix test `s[:n] == pat`: `leadsWith pat s` means `s` starts with `pat`. -/
def leadsWith : Str → Str → Bool
  | [], _ => true
  | _ :: _, [] => false
  | a :: as, b :: bs => a == b && leadsWith as bs

/-- Python substring test `pat in s`. -/
def subIn (pat : Str) : Str → Bool
  | [] => leadsWith pat []
  | s@(_ :: rest) => leadsWith pat s || subIn pat rest

/-- Split a string at the first occurrence of character `c`
(Python `s.split(c, 1)` when `c in s`); `none` when `c` does not occur. -/
def splitAtFirst (c : Char) : Str → Option (Str × Str)
  | [] => none
  | a :: as =>
    if a = c then some ([], as)
    else (splitAtFirst c as).map (fun p => (a :: p.1, p.2))

/-- Characters allowed in a URL scheme (`urllib.parse.scheme_chars`). -/
def schemeChar (c : Char) : Bool :=
  c.isAlpha || c.isDigit || c == '+' || c == '-' || c == '.'

/-- Python `str.lower()` restricted to ASCII (schemes are ASCII by construction). -/
def lowerStr (s : Str) : Str := s.map Char.toLower

/-- Delimiters ending the network-location part (`urllib.parse._splitnetloc`). -/
def netDelim (c : Char) : Bool := c == '/' || c == '?' || c == '#'

/-- The WHATWG C0-control-or-space class stripped from the front of a URL by
`urlsplit` (`_WHATWG_C0_CONTROL_OR_SPACE`). -/
def c0OrSpace (c : Char) : Bool := c.toNat ≤ 32

/-- Bytes removed everywhere in a URL by `urlsplit`
(`_UNSAFE_URL_BYTES_TO_REMOVE`: tab, CR, LF). -/
def unsafeUrlByte (c : Char) : Bool := c == '\t' || c == '\r' || c == '\n'

/-- The sanitation `urlsplit` applies to its `url` argument: strip leading
C0-control-or-space characters, then remove all tab/CR/LF bytes. -/
def sanitizeUrl (s : Str) : Str :=
  (s.dropWhile c0OrSpace).filter (fun c => !unsafeUrlByte c)

/-- The sanitation `urlsplit` applies to its default-scheme argument: strip
C0-control-or-space characters from both ends, then remove tab/CR/LF bytes. -/
def sanitizeScheme (s : Str) : Str :=
  (((s.dropWhile c0OrSpace).reverse.dropWhile c0OrSpace).reverse).filter
    (fun c => !unsafeUrlByte c)

/-- Result of `urllib.parse.urlsplit`. -/
structure SplitResult where
  scheme : Str
  netloc : Str
  path : Str
  query : Str
  fragment : Str
deriving DecidableEq, Repr

/-- Result of `urllib.parse.urlparse` (adds the `;params` component). -/
structure ParseResult where
  scheme : Str
  netloc : Str
  path : Str
  params : Str
  query : Str
  fragment : Str
deriving DecidableEq, Repr

/-- The scheme-detection step of `urlsplit`: split at the first `:` when the
part before it is a nonempty run of scheme characters starting with an ASCII
letter; the scheme is lowercased.  Returns (scheme, remaining url). -/
def schemeSplit (url : Str) (defScheme : Str) : Str × Str :=
  match splitAtFirst ':' url with
  | some (pre, post) =>
    match pre with
    | [] => (defScheme, url)
    | c :: _ =>
      if c.isAlpha && pre.all schemeChar then (lowerStr pre, post)
      else (defScheme, url)
  | none => (defScheme, url)

/-- The netloc step of `urlsplit` (`_splitnetloc`): after a leading `//`, the
netloc runs to the first `/`, `?` or `#`.  Returns (netloc, remaining url). -/
def netlocSplit : Str → Str × Str
  | '/' :: '/' :: r =>
    (r.takeWhile (fun c => !(netDelim c)), r.dropWhile (fun c => !(netDelim c)))
  | s => (([] : Str), s)

/-- The fragment step of `urlsplit`: split at the first `#`. -/
def fragSplit (s : Str) : Str × Str :=
  match splitAtFirst '#' s with
  | some (a, b) => (a, b)
  | none => (s, ([] : Str))

/-- The query step of `urlsplit`: split at the first `?`. -/
def querySplit (s : Str) : Str × Str :=
  match splitAtFirst '?' s with
  | some (a, b) => (a, b)
  | none => (s, ([] : Str))

/-- Core of `urllib.parse.urlsplit(url, scheme)` with `allow_fragments=True`, after
the sanitation pass (see `urlsplit`).  The bracketed-host `ValueError` paths are not
modelled: no input considered here contains `[` or `]` in its netloc. -/
def urlsplitCore (url : Str) (defScheme : Str) : SplitResult :=
  let sr := schemeSplit url defScheme
  let nr := netlocSplit sr.2
  let fr := fragSplit nr.2
  let pq := querySplit fr.1
  ⟨sr.1, nr.1, pq.1, pq.2, fr.2⟩

/-- Model of `urllib.parse.urlsplit(url, scheme)` with `allow_fragments=True`
(Python 3.11): sanitize both arguments, then split. -/
def urlsplit (url : Str) (defScheme : Str) : SplitResult :=
  urlsplitCore (sanitizeUrl url) (sanitizeScheme defScheme)

/-- The list `urllib.parse.uses_relative` (Python 3.11). -/
def uses_relative : List Str :=
  [str "", str "ftp", str "http", str "gopher", str "nntp", str "imap",
   str "wais", str "file", str "https", str "shttp", str "mms",
   str "prospero", str "rtsp", str "rtsps", str "rtspu", str "sftp",
   str "svn", str "svn+ssh", str "ws", str "wss"]

/-- The list `urllib.parse.uses_netloc` (Python 3.11). -/
def uses_netloc : List Str :=
  [str "", str "ftp", str "http", str "gopher", str "nntp", str "telnet",
   str "imap", str "wais", str "file", str "mms", str "https", str "shttp",
   str "snews", str "prospero", str "rtsp", str "rtsps", str "rtspu",
   str "rsync", str "svn", str "svn+ssh", str "sftp", str "nfs", str "git",
   str "git+ssh", str "ws", str "wss"]

/-- The list `urllib.parse.uses_params` (Python 3.11). -/
def uses_params : List Str :=
  [str "", str "ftp", str "hdl", str "prospero", str "http", str "imap",
   str "https", str "shttp", str "rtsp", str "rtsps", str "rtspu", str "sip",
   str "sips", str "mms", str "sftp", str "tel"]

/-- Model of `urllib.parse._splitparams`: split `;params` off the last path segment. -/
def splitparams (url : Str) : Str × Str :=
  let seg := (url.reverse.takeWhile (fun c => c != '/')).reverse
  let pre := url.take (url.length - seg.length)
  match splitAtFirst ';' seg with
  | none => (url, [])
  | some (a, b) => (pre ++ a, b)

/-- Model of `urllib.parse.urlparse(url, scheme)` with `allow_fragments=True`. -/
def urlparse (url : Str) (defScheme : Str) : ParseResult :=
  let s := urlsplit url defScheme
  if s.scheme ∈ uses_params ∧ s.path.contains ';' then
    let pp := splitparams s.path
    ⟨s.scheme, s.netloc, pp.1, pp.2, s.query, s.fragment⟩
  else
    ⟨s.scheme, s.netloc, s.path, [], s.query, s.fragment⟩

/-- The `if url and url[:1] != '/': url = '/' + url` step of `urlunsplit`:
prepend a `/` to a nonempty path that lacks one. -/
def pathFix : Str → Str
  | [] => []
  | '/' :: t => '/' :: t
  | c :: t => '/' :: c :: t

/-- Model of `urllib.parse.urlunsplit` (Python 3.11). -/
def urlunsplit (s : SplitResult) : Str :=
  let u1 :=
    if s.netloc ≠ [] ∨
       (s.scheme ≠ [] ∧ s.scheme ∈ uses_netloc ∧
         leadsWith ['/', '/'] s.path = false) then
      '/' :: '/' :: (s.netloc ++ pathFix s.path)
    else s.path
  let u2 := if s.scheme ≠ [] then s.scheme ++ ':' :: u1 else u1
  let u3 := if s.query ≠ [] then u2 ++ '?' :: s.query else u2
  if s.fragment ≠ [] then u3 ++ '#' :: s.fragment else u3

/-- Model of `urllib.parse.urlunparse`. -/
def urlunparse (p : ParseResult) : Str :=
  let path := if p.params ≠ [] then p.path ++ ';' :: p.params else p.path
  urlunsplit ⟨p.scheme, p.netloc, path, p.query, p.fragment⟩

/-- Python `s.split('/')`. -/
def splitOnSlash : Str → List Str
  | [] => [[]]
  | '/' :: r => [] :: splitOnSlash r
  | c :: r =>
    match splitOnSlash r with
    | [] => [[c]]
    | h :: t => (c :: h) :: t

/-- Python `'/'.join(l)`. -/
def joinSlash : List Str → Str
  | [] => []
  | [s] => s
  | s :: rest => s ++ '/' :: joinSlash rest

/-- Helper for `segments[1:-1] = filter(None, segments[1:-1])`: drop empty entries
except in the last position. -/
def midFilter : List Str → List Str
  | [] => []
  | [y] => [y]
  | y :: rest => if y = [] then midFilter rest else y :: midFilter rest

/-- The assignment `segments[1:-1] = filter(None, segments[1:-1])`: keep the first
and last entries, drop empty entries in between. -/
def filterMiddle : List Str → List Str
  | [] => []
  | x :: rest => x :: midFilter rest

/-- The dot-segment resolution loop of `urljoin`: `..` pops, `.` is skipped,
anything else is appended (a pop on an empty stack is ignored). -/
def resolveSegs (segs : List Str) : List Str :=
  segs.foldl
    (fun acc seg =>
      if seg = str ".." then acc.dropLast
      else if seg = str "." then acc
      else acc ++ [seg]) []

/-- The path-merge step of `urljoin`: resolve the candidate's path against the
base path per the RFC 3986 loop in CPython (split, filter redundant empty
middle segments, process `.`/`..`, re-join, defaulting to `/`). -/
def mergePaths (bpath upath : Str) : Str :=
  let base_parts0 := splitOnSlash bpath
  let base_parts :=
    if base_parts0.getLast? ≠ some ([] : Str) then base_parts0.dropLast
    else base_parts0
  let segments :=
    if leadsWith ['/'] upath then splitOnSlash upath
    else filterMiddle (base_parts ++ splitOnSlash upath)
  let resolved0 := resolveSegs segments
  let resolved :=
    if segments.getLast? = some (str ".") ∨ segments.getLast? = some (str "..") then
      resolved0 ++ [([] : Str)]
    else resolved0
  let rpath0 := joinSlash resolved
  if rpath0 = [] then ['/'] else rpath0

/-- The body of `urljoin` after both arguments are parsed (`b` from the base
with default scheme `''`, `u` from the candidate with default scheme
`b.scheme`); `url` is the raw candidate, returned untouched on a scheme
mismatch. -/
def urljoinCore (b u : ParseResult) (url : Str) : Str :=
  if u.scheme ≠ b.scheme ∨ u.scheme ∉ uses_relative then url
  else if u.scheme ∈ uses_netloc ∧ u.netloc ≠ [] then
    urlunparse ⟨u.scheme, u.netloc, u.path, u.params, u.query, u.fragment⟩
  else if u.path = [] ∧ u.params = [] then
    urlunparse ⟨u.scheme,
      (if u.scheme ∈ uses_netloc then b.netloc else u.netloc),
      b.path, b.params,
      (if u.query = [] then b.query else u.query), u.fragment⟩
  else
    urlunparse ⟨u.scheme,
      (if u.scheme ∈ uses_netloc then b.netloc else u.netloc),
      mergePaths b.path u.path, u.params, u.query, u.fragment⟩

/-- Model of `urllib.parse.urljoin(base, url)` (Python 3.11, `allow_fragments=True`). -/
def urljoin (base url : Str) : Str :=
  if base = [] then url
  else if url = [] then base
  else urljoinCore (urlparse base []) (urlparse url (urlparse base []).scheme) url

/-- The marker substring checked by `resolve_url` (`miles.py:60`). -/
def httpsMarker : Str := str "https://"

/-- Model of `resolve_url(base, url)` (`miles.py:50-63`): return `url` unchanged when it
contains the substring `https://`, otherwise join it onto `base` with
`urllib.parse.urljoin`. -/
def resolve_url (base url : Str) : Str :=
  if subIn httpsMarker url then url else urljoin base url

/-! ### Regular expressions

The patterns in `FILE_REGEX` (`miles.py:20-25`) use only literals, `.`, greedy
`*`/`+`/`?`, one negated character class, and one capturing group.  They are
embedded as an abstract syntax tree and matched by a backtracking engine whose
result list is in Python's backtracking preference order (leftmost position,
then greedy-longest), so the head of the list is the match `re` would produce. -/

/-- Abstract syntax of the regex fragment used by `FILE_REGEX`. -/
inductive RE where
  | eps : RE
  | chr : Char → RE
  | dot : RE
  | ncls : List Char → RE
  | cat : RE → RE → RE
  | alt : RE → RE → RE
  | star : RE → RE
  | group : RE → RE
deriving DecidableEq, Repr

/-- Combine the capture of two sequenced sub-matches; the patterns modelled here
contain a single group, so at most one side is ever `some`. -/
def mergeCap : Option Str → Option Str → Option Str
  | some x, _ => some x
  | none, y => y

/-- Node count of a regex, used to size the matcher's fuel. -/
def reSize : RE → Nat
  | .eps => 1
  | .chr _ => 1
  | .dot => 1
  | .ncls _ => 1
  | .cat a b => 1 + reSize a + reSize b
  | .alt a b => 1 + reSize a + reSize b
  | .star r => 1 + reSize r
  | .group r => 1 + reSize r

/-- All anchored matches of `r` against `s`, as pairs of (remaining suffix,
captured group), in Python's backtracking preference order.  `fuel` bounds the
recursion depth (structurally, so the kernel can evaluate the matcher); a
`star` iteration that consumes no input is dropped — the `star` bodies
occurring in `FILE_REGEX` always consume input, so this matches `re` exactly
there, and `reFuel` over-provisions the depth so the cut-off case is never
reached on the inputs used. -/
def reMatch : Nat → RE → Str → List (Str × Option Str)
  | 0, _, _ => []
  | _ + 1, .eps, s => [(s, none)]
  | _ + 1, .chr _, [] => []
  | _ + 1, .chr c, a :: as => if a = c then [(as, (none : Option Str))] else []
  | _ + 1, .dot, [] => []
  | _ + 1, .dot, a :: as => if a = '\n' then [] else [(as, (none : Option Str))]
  | _ + 1, .ncls _, [] => []
  | _ + 1, .ncls bad, a :: as => if a ∈ bad then [] else [(as, (none : Option Str))]
  | fuel + 1, .cat a b, s =>
    (reMatch fuel a s).flatMap (fun r1 =>
      (reMatch fuel b r1.1).map (fun r2 => (r2.1, mergeCap r1.2 r2.2)))
  | fuel + 1, .alt a b, s => reMatch fuel a s ++ reMatch fuel b s
  | fuel + 1, .group r, s =>
    (reMatch fuel r s).map (fun r1 => (r1.1, some (s.take (s.length - r1.1.length))))
  | fuel + 1, .star r, s =>
    (((reMatch fuel r s).filter (fun r1 => r1.1.length < s.length)).flatMap
      (fun r1 => (reMatch fuel (.star r) r1.1).map
        (fun r2 => (r2.1, mergeCap r1.2 r2.2))))
    ++ [(s, none)]

/-- Fuel that over-provisions the matcher's recursion depth: a `star` of a
body that consumes input unfolds at most once per character, and every other
node adds at most its own size to the depth. -/
def reFuel (r : RE) (s : Str) : Nat := (reSize r + 1) * (s.length + 2)

/-- Model of `re.findall(r, s)` for a pattern with exactly one capturing group: scan
positions left to right, take the preferred match at the first position that
matches, collect its group, and continue after the match.  The fuel argument
makes the scan structurally recursive; `s.length + 1` steps always suffice. -/
def findallGo (r : RE) : Nat → Str → List Str
  | 0, _ => []
  | fuel + 1, s =>
    match (reMatch (reFuel r s) r s).head? with
    | some rc =>
      if rc.1.length < s.length then
        (rc.2.getD []) :: findallGo r fuel rc.1
      else
        match s with
        | [] => [rc.2.getD []]
        | _ :: rest => (rc.2.getD []) :: findallGo r fuel rest
    | none =>
      match s with
      | [] => []
      | _ :: rest => findallGo r fuel rest

/-- Model of `re.findall(r, data)` (used at `miles.py:83`). -/
def findall (r : RE) (data : Str) : List Str :=
  findallGo r (data.length + 1) data

/-- Sequence a list of regexes. -/
def reSeq (l : List RE) : RE := l.foldr RE.cat RE.eps

/-- Literal word. -/
def reLits (s : Str) : RE := reSeq (s.map RE.chr)

/-- Greedy `+`. -/
def rePlus (r : RE) : RE := .cat r (.star r)

/-- Greedy `?`. -/
def reOpt (r : RE) : RE := .alt r .eps

/-- The shared shape of every pattern in `FILE_REGEX`:
`OPENER.*ATTR"?([^\" ]+.EXT)` — e.g. `fileRe "<img" "src=" "jpg"` is
`<img.*src="?([^\" ]+.jpg)`.  Note the unescaped `.` before the extension:
it matches any character. -/
def fileRe (opener attr ext : Str) : RE :=
  reSeq [reLits opener, RE.star RE.dot, reLits attr, reOpt (RE.chr '"'),
         RE.group (reSeq [rePlus (RE.ncls ['"', ' ']), RE.dot, reLits ext])]

/-- The dict `FILE_REGEX` (`miles.py:20-25`): tag ↦ ordered pattern rules. -/
def FILE_REGEX : List (Str × List RE) :=
  [(str "jpg", [fileRe (str "<img") (str "src=") (str "jpg"),
                fileRe (str "<a") (str "href=") (str "jpg")]),
   (str "mp3", [fileRe (str "<audio") (str "src=") (str "mp3"),
                fileRe (str "<a") (str "href=") (str "mp3")]),
   (str "pdf", [fileRe (str "<a") (str "href=") (str "pdf")]),
   (str "png", [fileRe (str "<img") (str "src=") (str "png"),
                fileRe (str "<a") (str "href=") (str "png")])]

/-- Python dict lookup `FILE_REGEX[t]`: `none` models the `KeyError` raise. -/
def regexLookup (t : Str) : Option (List RE) :=
  (FILE_REGEX.find? (fun p => p.1 == t)).map (fun p => p.2)

/-! ### HTTP responses and link extraction -/

/-- An HTTP response as seen through `requests`: final status code, raw body
bytes (`response.content`) and decoded body text (`response.text`).  A fetch
outcome is `Option Response`; `none` models a transport error raised as a
`requests.exceptions.RequestException`. -/
structure Response where
  status : Nat
  content : List Nat
  text : Str
deriving DecidableEq, Repr

/-- Statuses for which `response.raise_for_status()` raises: codes in
[400, 600). -/
def statusError (st : Nat) : Prop := 400 ≤ st ∧ st < 600

instance (st : Nat) : Decidable (statusError st) := by
  unfold statusError; infer_instance

/-- The generator loop of `extract_urls` (`miles.py:81-84`) run to completion:
returns the URLs yielded (tag order, then rule order, then match order) and
`some t` when iteration aborts with `KeyError: t` on a tag missing from
`FILE_REGEX`. -/
def extractLoop (pageUrl : Str) (data : Str) : List Str → List Str × Option Str
  | [] => ([], none)
  | t :: ts =>
    match regexLookup t with
    | none => ([], some t)
    | some rules =>
      let ys := rules.flatMap (fun r => (findall r data).map (resolve_url pageUrl))
      let rest := extractLoop pageUrl data ts
      (ys ++ rest.1, rest.2)

/-- Model of `extract_urls(url, file_types)` (`miles.py:65-84`) with the page fetch made
explicit: on a transport error or an error status the generator returns before
yielding anything (the `except` clause at `miles.py:78-79`), otherwise it runs
`extractLoop` on the page text.  The second component is the `KeyError` tag, if
iterating the generator raises one. -/
def extract_urls (url : Str) (fileTypes : List Str) (resp : Option Response) :
    List Str × Option Str :=
  match resp with
  | none => ([], none)
  | some r =>
    if statusError r.status then ([], none)
    else extractLoop url r.text fileTypes

/-! ### Downloading and the filesystem -/

/-- Raw file contents (bytes). -/
abbrev Bytes := List Nat

/-- The destination filesystem: a map from paths to file contents. -/
abbrev Fs := Str → Option Bytes

/-- A file write `open(path, 'wb'); stream.write(content)`: create or
truncate-and-overwrite. -/
def fsWrite (fs : Fs) (p : Str) (c : Bytes) : Fs :=
  fun q => if q = p then some c else fs q

/-- The `if url[-1] == '/': url = url[:-1]` step (`miles.py:109-110`).  (On the
empty string Python would raise `IndexError`; every URL that reaches this code
is nonempty, and the model returns `[]` there.) -/
def stripTrailingSlash (u : Str) : Str :=
  if u.getLast? = some '/' then u.dropLast else u

/-- Model of `os.path.basename`: everything after the last `/` (the whole string if
there is no `/`). -/
def basenameStr (u : Str) : Str :=
  (u.reverse.takeWhile (fun c => c != '/')).reverse

/-- Model of `os.path.join(d, b)` (posixpath, two arguments). -/
def osJoin (d b : Str) : Str :=
  if leadsWith ['/'] b then b
  else if d = [] then b
  else if d.getLast? = some '/' then d ++ b
  else d ++ '/' :: b

/-- The saved path `download_url` derives for `url` (`miles.py:109-111`). -/
def savedPath (destination url : Str) : Str :=
  osJoin destination (basenameStr (stripTrailingSlash url))

/-- Model of `download_url(url, destination)` (`miles.py:86-114`) with the fetch and the
filesystem explicit: on a transport error or an error status it returns `None`
and leaves the filesystem untouched (the `except` clause at `miles.py:107-108`);
on success it writes `response.content` to the derived path (overwriting any
existing file) and returns the path.  The progress print is a side effect
outside the model. -/
def download_url (url destination : Str) (resp : Option Response) (fs : Fs) :
    Option Str × Fs :=
  match resp with
  | none => (none, fs)
  | some r =>
    if statusError r.status then (none, fs)
    else
      let filename := savedPath destination url
      (some filename, fsWrite fs filename r.content)

/-! ### The crawl orchestrator -/

/-- The collection loop of `crawl` (`miles.py:136-141`): download each URL in
order (with parallelism 1 this is exactly the execution order), keep the paths
of the downloads that returned a truthy path (`if not file: continue` skips
both `None` and the empty string), and thread the filesystem through. -/
def downloadAll (respOf : Str → Option Response) (destination : Str) :
    List Str → Fs → List Str × Fs
  | [], fs => ([], fs)
  | u :: us, fs =>
    let r := download_url u destination (respOf u) fs
    match r.1 with
    | none => downloadAll respOf destination us r.2
    | some f =>
      let rest := downloadAll respOf destination us r.2
      if f = [] then rest else (f :: rest.1, rest.2)

/-- Model of `os.stat(path).st_size` (`miles.py:143`).  `os.stat` raises on a missing
path; every path `crawl` passes here was just written by a download, so the
lookup succeeds, and a missing path is given size 0 only to keep the model
total. -/
def statSize (fs : Fs) (p : Str) : Nat := ((fs p).getD []).length

/-- The write each successful download performs: its saved path paired with the
response body.  In source order this is the per-URL content `crawl`'s pool
writes to disk. -/
def writePlan (respOf : Str → Option Response) (destination : Str)
    (urls : List Str) : List (Str × Bytes) :=
  urls.filterMap (fun u =>
    match respOf u with
    | none => none
    | some r =>
      if statusError r.status then none
      else some (savedPath destination u, r.content))

/-- Apply a list of file writes in order. -/
def applyWrites (fs : Fs) (l : List (Str × Bytes)) : Fs :=
  l.foldl (fun fs w => fsWrite fs w.1 w.2) fs

/-- Python float division: raises `ZeroDivisionError` on a zero divisor. -/
inductive PyError where
  | zeroDivision : PyError
deriving DecidableEq, Repr

/-- Python `a / b` on floats, modelled exactly over `ℚ`: defined division for a
nonzero divisor, `ZeroDivisionError` for a zero divisor. -/
def pyDiv (a b : ℚ) : Except PyError ℚ :=
  if b = 0 then .error .zeroDivision else .ok (a / b)

/-- The crawl report printed at `miles.py:146-149`. -/
structure Report where
  file_num : Nat
  size_total : ℚ
  total_time : ℚ
  download_speed : ℚ
deriving DecidableEq, Repr

/-- The collected saved paths and final filesystem of a crawl over `urls`. -/
def crawlFiles (urls : List Str) (respOf : Str → Option Response)
    (destination : Str) (fs : Fs) : List Str × Fs :=
  downloadAll respOf destination urls fs

/-- The byte total `crawl` aggregates (`miles.py:143-144` before the megabyte
division): the sum of `os.stat(...).st_size` over the collected paths, taken on
the filesystem after all downloads finished. -/
def crawlBytesTotal (urls : List Str) (respOf : Str → Option Response)
    (destination : Str) (fs : Fs) : Nat :=
  let df := crawlFiles urls respOf destination fs
  (df.1.map (statSize df.2)).sum

/-- The report computation of `crawl` (`miles.py:133-149`): `total_time` is the
measured wall-clock duration (a parameter of the model), `size_total` is the
stat-based byte total divided by 1048576, and the bandwidth is
`size_total / total_time` with Python's division semantics. -/
def crawlReport (urls : List Str) (respOf : Str → Option Response)
    (destination : Str) (fs : Fs) (total_time : ℚ) : Except PyError Report :=
  let df := crawlFiles urls respOf destination fs
  let file_num := df.1.length
  let size_total : ℚ := ((df.1.map (statSize df.2)).sum : ℚ) / 1048576
  match pyDiv size_total total_time with
  | .error e => .error e
  | .ok speed => .ok ⟨file_num, size_total, total_time, speed⟩

/-- The byte total a crawl reports when the pool's writes land on disk in the
order given by `order`: the collected paths are fixed by `executor.map` (it
returns results in input order), but with parallelism above 1 the writes of
distinct workers may complete in any order, so any permutation of the
sequential write list is an admissible `order`.  With parallelism 1, `order` is
exactly `writePlan respOf destination urls`. -/
def crawlBytesWithOrder (urls : List Str) (respOf : Str → Option Response)
    (destination : Str) (fs : Fs) (order : List (Str × Bytes)) : Nat :=
  let files := ((writePlan respOf destination urls).map Prod.fst).filter
    (fun p => !p.isEmpty)
  (files.map (statSize (applyWrites fs order))).sum

/-! ### Derived predicates used in the claim statements -/

/-- The fetch attempt failed: transport error, or a status
`raise_for_status` rejects. -/
def fetchFailed : Option Response → Prop
  | none => True
  | some r => statusError r.status

instance (resp : Option Response) : Decidable (fetchFailed resp) := by
  cases resp <;> unfold fetchFailed <;> infer_instance

/-- What the spec calls the URL's final path segment: the last `/`-separated
piece of the URL's *path* component (query and fragment excluded), after
stripping a trailing slash.  Modelled from the spec's words, to compare with
the filename `download_url` actually derives. -/
def finalPathSegment (url : Str) : Str :=
  basenameStr (stripTrailingSlash (urlsplit url []).path)

/-- A tail that may legally follow `scheme://host` in a URL: empty, or starting
with a path, query or fragment delimiter. -/
def delimTail (tail : Str) : Prop :=
  tail = [] ∨ ∃ c t, tail = c :: t ∧ (c = '/' ∨ c = '?' ∨ c = '#')

/-- The content of the last write to path `p` in a write list, if any. -/
def lastWrite (p : Str) : List (Str × Bytes) → Option Bytes
  | [] => none
  | w :: rest =>
    match lastWrite p rest with
    | some c => some c
    | none => if w.1 = p then some w.2 else none

/-! ### Theorems -/

/-- The terminal outcome of the extraction generator is the `KeyError` on the
first requested tag missing from `FILE_REGEX`, if any. -/
theorem extractLoop_snd (pageUrl data : Str) (tags : List Str) :
    (extractLoop pageUrl data tags).2 = tags.find? (fun t => (regexLookup t).isNone) := by
  induction tags with
  | nil => rfl
  | cons t ts ih =>
    cases hrl : regexLookup t with
    | none => simp [extractLoop, hrl, List.find?]
    | some rules => simp [extractLoop, hrl, List.find?, ih]

/-- Reading a path after a list of writes returns the last write to it, else
what the filesystem already held. -/
theorem applyWrites_read (l : List (Str × Bytes)) (fs : Fs) (p : Str) :
    applyWrites fs l p =
      match lastWrite p l with
      | some c => some c
      | none => fs p := by
  induction l generalizing fs with
  | nil => rfl
  | cons w rest ih =>
    have hstep : applyWrites fs (w :: rest) = applyWrites (fsWrite fs w.1 w.2) rest := rfl
    rw [hstep, ih]
    cases hlw : lastWrite p rest with
    | some c => simp [lastWrite, hlw]
    | none =>
      by_cases hw : w.1 = p
      · simp [lastWrite, hlw, fsWrite, hw]
      · have hpw : ¬ p = w.1 := fun hh => hw hh.symm
        simp [lastWrite, hlw, fsWrite, hw, hpw]

/-- No write to `p` in the list means no last write to it. -/
theorem lastWrite_none (l : List (Str × Bytes)) (p : Str)
    (h : p ∉ l.map Prod.fst) : lastWrite p l = none := by
  induction l with
  | nil => rfl
  | cons w rest ih =>
    have hrest : p ∉ rest.map Prod.fst := fun hm => h (List.mem_cons.mpr (Or.inr hm))
    have hw : ¬ w.1 = p := fun hh => h (List.mem_cons.mpr (Or.inl hh.symm))
    simp [lastWrite, ih hrest, hw]

/-- With pairwise-distinct written paths, the last (indeed only) write to
`w.1` is `w` itself. -/
theorem lastWrite_unique (l : List (Str × Bytes)) (w : Str × Bytes)
    (hnd : (l.map Prod.fst).Nodup) (hw : w ∈ l) :
    lastWrite w.1 l = some w.2 := by
  induction l with
  | nil => cases hw
  | cons a rest ih =>
    have hnd2 := List.nodup_cons.mp hnd
    rcases List.mem_cons.mp hw with h | h
    · subst h
      have hnone : lastWrite w.1 rest = none :=
        lastWrite_none rest w.1 hnd2.1
      simp [lastWrite, hnone]
    · simp [lastWrite, ih hnd2.2 h]

/-- With pairwise-distinct written paths, applying the writes in any order
produces the same filesystem. -/
theorem applyWrites_perm (l' l : List (Str × Bytes)) (fs : Fs)
    (hperm : l'.Perm l) (hnd : (l.map Prod.fst).Nodup) (p : Str) :
    applyWrites fs l' p = applyWrites fs l p := by
  rw [applyWrites_read, applyWrites_read]
  have hnd' : (l'.map Prod.fst).Nodup :=
    ((hperm.map Prod.fst).nodup_iff).mpr hnd
  suffices h : lastWrite p l' = lastWrite p l by rw [h]
  by_cases hex : ∃ w ∈ l, w.1 = p
  · obtain ⟨w, hwl, hwp⟩ := hex
    subst hwp
    rw [lastWrite_unique l w hnd hwl,
        lastWrite_unique l' w hnd' (hperm.mem_iff.mpr hwl)]
  · have hl : p ∉ l.map Prod.fst := by
      intro hm
      obtain ⟨w, hwl, hwp⟩ := List.mem_map.mp hm
      exact hex ⟨w, hwl, hwp⟩
    have hl' : p ∉ l'.map Prod.fst := by
      intro hm
      obtain ⟨w, hwl, hwp⟩ := List.mem_map.mp hm
      exact hex ⟨w, hperm.mem_iff.mp hwl, hwp⟩
    rw [lastWrite_none l p hl, lastWrite_none l' p hl']

/-- The collection loop is exactly the write plan: the collected paths are the
truthy saved paths of the successful downloads in input order, and the final
filesystem is the initial one with every successful download's write applied in
order. -/
theorem downloadAll_eq_plan (respOf : Str → Option Response) (destination : Str)
    (urls : List Str) (fs : Fs) :
    downloadAll respOf destination urls fs =
      (((writePlan respOf destination urls).map Prod.fst).filter
          (fun p => !p.isEmpty),
       applyWrites fs (writePlan respOf destination urls)) := by
  induction urls generalizing fs with
  | nil => rfl
  | cons u us ih =>
    cases hr : respOf u with
    | none =>
      simp only [downloadAll, download_url, hr]
      rw [ih]
      simp [writePlan, List.filterMap_cons, hr]
    | some r =>
      by_cases hs : statusError r.status
      · simp only [downloadAll, download_url, hr, if_pos hs]
        rw [ih]
        simp [writePlan, List.filterMap_cons, hr, hs]
      · simp only [downloadAll, download_url, hr, if_neg hs]
        rw [ih]
        have hplan : writePlan respOf destination (u :: us) =
            (savedPath destination u, r.content) :: writePlan respOf destination us := by
          simp [writePlan, List.filterMap_cons, hr, hs]
        rw [hplan]
        by_cases hf : savedPath destination u = []
        · simp [hf, applyWrites, List.filter_cons]
        · simp [hf, applyWrites, List.filter_cons, List.isEmpty_iff]

/-- C1 (amended): the bandwidth computation at `miles.py:145` has no
division-by-zero guard.  For nonzero elapsed time the report completes with
bandwidth `size_total / total_time`; for zero elapsed time the division raises
`ZeroDivisionError` and no report is produced. -/
theorem C1_bandwidth_division (urls : List Str) (respOf : Str → Option Response)
    (destination : Str) (fs : Fs) (total_time : ℚ) :
    (total_time = 0 →
      crawlReport urls respOf destination fs total_time =
        .error .zeroDivision) ∧
    (total_time ≠ 0 →
      crawlReport urls respOf destination fs total_time =
        .ok ⟨(crawlFiles urls respOf destination fs).1.length,
             (crawlBytesTotal urls respOf destination fs : ℚ) / 1048576,
             total_time,
             ((crawlBytesTotal urls respOf destination fs : ℚ) / 1048576) /
               total_time⟩) := by
  constructor
  · intro h
    subst h
    simp [crawlReport, pyDiv]
  · intro h
    simp [crawlReport, pyDiv, h, crawlBytesTotal, crawlFiles]

/-- Witness for `C1_bandwidth_division` at a concrete input. -/
theorem C1_bandwidth_division_witness :
    (1 : ℚ) ≠ 0 ∧
    crawlReport [] (fun _ => none) [] (fun _ => none) 1 = .ok ⟨0, 0, 1, 0⟩ := by
  refine ⟨one_ne_zero, ?_⟩
  have h := (C1_bandwidth_division [] (fun _ => none) [] (fun _ => none) 1).2 one_ne_zero
  simpa [crawlFiles, crawlBytesTotal, downloadAll] using h

/-- C1, counterexample to the claim as stated: a crawl whose measured elapsed
time is zero does not complete its report with bandwidth 0 — the division
raises `ZeroDivisionError`. -/
theorem C1_counterexample :
    crawlReport [] (fun _ => none) [] (fun _ => none) 0 =
      .error .zeroDivision := by
  simp [crawlReport, pyDiv]

/-- C3 (amended): an absolute candidate is returned unchanged when it contains
the substring `https://` (the branch at `miles.py:60-61`), and also whenever
its parsed scheme differs from the base's scheme (`urljoin` returns such a
candidate untouched).  Other absolute candidates pass through `urljoin` and may
be normalized rather than returned verbatim (see `C3_counterexample`). -/
theorem C3_absolute_passthrough (base url : Str)
    (h : subIn httpsMarker url = true ∨
      (base ≠ [] ∧ url ≠ [] ∧
        (urlparse url (urlparse base []).scheme).scheme ≠
          (urlparse base []).scheme)) :
    resolve_url base url = url := by
  rcases h with h | ⟨hb, hu, hs⟩
  · simp [resolve_url, h]
  · by_cases hin : subIn httpsMarker url
    · simp [resolve_url, hin]
    · simp only [resolve_url, hin, Bool.false_eq_true, if_false]
      unfold urljoin urljoinCore
      rw [if_neg hb, if_neg hu, if_pos (Or.inl hs)]

/-- Witness for `C3_absolute_passthrough` at a concrete input. -/
theorem C3_absolute_passthrough_witness :
    subIn httpsMarker (str "https://other.com/x.png") = true ∧
    resolve_url (str "https://base.org/") (str "https://other.com/x.png") =
      str "https://other.com/x.png" :=
  ⟨by decide, C3_absolute_passthrough _ _ (Or.inl (by decide))⟩

/-- C3, counterexample to the claim as stated: the absolute candidate
`HTTP://x/y` (scheme-and-host prefix, uppercase scheme) is not returned
unchanged — it misses the `https://` substring check, and `urljoin` lowercases
its scheme while reassembling it. -/
theorem C3_counterexample :
    resolve_url (str "http://a/b") (str "HTTP://x/y") = str "http://x/y" ∧
    str "http://x/y" ≠ str "HTTP://x/y" ∧
    (urlsplit (str "HTTP://x/y") []).netloc = str "x" := by
  refine ⟨by decide, by decide, by decide⟩

/-- C4 (confirmed): when the page fetch fails — transport error or a status
`raise_for_status` raises on — `extract_urls` returns an empty sequence and no
exception reaches the caller (in particular no `KeyError`, because the
generator returns before touching `FILE_REGEX`). -/
theorem C4_extract_failed_empty (url : Str) (fileTypes : List Str)
    (resp : Option Response) (h : fetchFailed resp) :
    extract_urls url fileTypes resp = ([], none) := by
  cases resp with
  | none => rfl
  | some r =>
    have h2 : statusError r.status := h
    simp [extract_urls, h2]

/-- Witness for `C4_extract_failed_empty` at a concrete input. -/
theorem C4_extract_failed_empty_witness :
    fetchFailed (some ⟨404, [], str "<img src=\"a.jpg\">"⟩) ∧
    extract_urls (str "https://h/") [str "jpg"]
      (some ⟨404, [], str "<img src=\"a.jpg\">"⟩) = ([], none) :=
  ⟨by decide, C4_extract_failed_empty _ _ _ (by decide)⟩

/-- C5 (confirmed): when the download fetch fails — transport error or a status
`raise_for_status` raises on — `download_url` returns the failure signal `None`
and the filesystem is unchanged (the `except` clause returns before the write);
the single modelled GET also reflects that no retry happens. -/
theorem C5_download_failed_clean (url destination : Str) (resp : Option Response)
    (fs : Fs) (h : fetchFailed resp) :
    download_url url destination resp fs = (none, fs) := by
  cases resp with
  | none => rfl
  | some r =>
    have h2 : statusError r.status := h
    simp [download_url, h2]

/-- Witness for `C5_download_failed_clean` at a concrete input (a 404). -/
theorem C5_download_failed_clean_witness :
    fetchFailed (some ⟨404, [7], []⟩) ∧
    download_url (str "https://h/x.jpg") (str "d") (some ⟨404, [7], []⟩)
      (fun _ => none) = (none, fun _ => none) :=
  ⟨by decide, C5_download_failed_clean _ _ _ _ (by decide)⟩

/-- C6 (amended): on success the saved filename is the final `/`-separated
segment of the *entire URL string* (query and fragment included), after
stripping one trailing slash; the full response body is written as binary to
`destinationDir/filename`, and a read-back of that path returns the new body
regardless of what the filesystem previously held (overwrite). -/
theorem C6_download_success_write (url destination : Str) (r : Response)
    (fs : Fs) (h : ¬ statusError r.status) :
    download_url url destination (some r) fs =
      (some (savedPath destination url),
       fsWrite fs (savedPath destination url) r.content) ∧
    fsWrite fs (savedPath destination url) r.content (savedPath destination url) =
      some r.content := by
  constructor
  · simp [download_url, h]
  · simp [fsWrite]

/-- Witness for `C6_download_success_write` at a concrete input, also showing
the trailing-slash stripping on the derived path. -/
theorem C6_download_success_write_witness :
    ¬ statusError 200 ∧
    savedPath (str "d") (str "https://h/a/ostep.jpg/") = str "d/ostep.jpg" ∧
    (download_url (str "https://h/a/ostep.jpg/") (str "d")
        (some ⟨200, [9, 9], []⟩) (fun _ => none) =
      (some (savedPath (str "d") (str "https://h/a/ostep.jpg/")),
       fsWrite (fun _ => none)
         (savedPath (str "d") (str "https://h/a/ostep.jpg/")) [9, 9]) ∧
     fsWrite (fun _ => none)
         (savedPath (str "d") (str "https://h/a/ostep.jpg/")) [9, 9]
         (savedPath (str "d") (str "https://h/a/ostep.jpg/")) = some [9, 9]) :=
  ⟨by decide, by decide, C6_download_success_write _ _ _ _ (by decide)⟩

/-- C6, counterexample to the claim as stated: for a successfully fetched URL
carrying a query string, the filename is *not* derived from the URL's final
path segment — `os.path.basename` is applied to the raw URL, so the query
string ends up in the filename. -/
theorem C6_counterexample :
    (download_url (str "https://h/d?f=x.jpg") (str "dst")
        (some ⟨200, [1, 2, 3], []⟩) (fun _ => none)).1 =
      some (str "dst/d?f=x.jpg") ∧
    finalPathSegment (str "https://h/d?f=x.jpg") = str "d" ∧
    str "dst/d?f=x.jpg" ≠
      osJoin (str "dst") (finalPathSegment (str "https://h/d?f=x.jpg")) := by
  refine ⟨by decide, by decide, by decide⟩

/-- Characters of a string-initial match occur in the searched string. -/
theorem leadsWith_mem (pat s : Str) (h : leadsWith pat s = true) :
    ∀ c ∈ pat, c ∈ s := by
  induction pat generalizing s with
  | nil => intro c hc; cases hc
  | cons a as ih =>
    cases s with
    | nil => simp [leadsWith] at h
    | cons b bs =>
      simp only [leadsWith, Bool.and_eq_true, beq_iff_eq] at h
      intro c hc
      rcases List.mem_cons.mp hc with rfl | hc
      · exact List.mem_cons.mpr (Or.inl h.1)
      · exact List.mem_cons.mpr (Or.inr (ih bs h.2 c hc))

/-- Characters of a matched substring occur in the searched string. -/
theorem subIn_mem (pat s : Str) (h : subIn pat s = true) : ∀ c ∈ pat, c ∈ s := by
  induction s with
  | nil =>
    intro c hc
    cases pat with
    | nil => cases hc
    | cons a as => simp [subIn, leadsWith] at h
  | cons b bs ih =>
    intro c hc
    have h2 : leadsWith pat (b :: bs) = true ∨ subIn pat bs = true := by
      simpa [subIn] using h
    rcases h2 with h2 | h2
    · exact leadsWith_mem pat (b :: bs) h2 c hc
    · exact List.mem_cons.mpr (Or.inr (ih h2 c hc))

/-- A colon-free candidate cannot contain the `https://` marker. -/
theorem subIn_false_of_no_colon (s : Str) (h : ':' ∉ s) :
    subIn httpsMarker s = false := by
  cases hs : subIn httpsMarker s with
  | false => rfl
  | true => exact absurd (subIn_mem httpsMarker s hs ':' (by decide)) h

/-- Splitting at an absent character finds nothing. -/
theorem splitAtFirst_none (c : Char) (s : Str) (h : c ∉ s) :
    splitAtFirst c s = none := by
  induction s with
  | nil => rfl
  | cons a as ih =>
    have hac : ¬ a = c := fun hh => h (List.mem_cons.mpr (Or.inl hh.symm))
    have has : c ∉ as := fun hm => h (List.mem_cons.mpr (Or.inr hm))
    simp [splitAtFirst, hac, ih has]

/-- A colon-free URL keeps the default scheme. -/
theorem schemeSplit_no_colon (s d : Str) (hc : ':' ∉ s) :
    schemeSplit s d = (d, s) := by
  unfold schemeSplit
  rw [splitAtFirst_none ':' s hc]

/-- A URL that does not start with `//` has no netloc. -/
theorem netlocSplit_no_slashslash (s : Str) (h : leadsWith ['/', '/'] s = false) :
    netlocSplit s = ([], s) := by
  unfold netlocSplit
  split
  · simp [leadsWith] at h
  · rfl

/-- Splitting a relative reference (no scheme, no netloc) with `urlsplitCore`: the scheme
is the default, the netloc is empty, and path/query/fragment come from the
remaining splits. -/
theorem urlsplitCore_relative (s d : Str) (hc : ':' ∉ s)
    (hss : leadsWith ['/', '/'] s = false) :
    urlsplitCore s d =
      ⟨d, [], (querySplit (fragSplit s).1).1, (querySplit (fragSplit s).1).2,
        (fragSplit s).2⟩ := by
  simp only [urlsplitCore, schemeSplit_no_colon s d hc,
    netlocSplit_no_slashslash s hss]

/-- Parsing a sanitation-clean relative reference with `urlparse` keeps the (clean)
default scheme and has no netloc. -/
theorem urlparse_relative_components (s d : Str) (hc : ':' ∉ s)
    (hss : leadsWith ['/', '/'] s = false)
    (hclean : sanitizeUrl s = s) (hd : sanitizeScheme d = d) :
    (urlparse s d).scheme = d ∧ (urlparse s d).netloc = [] := by
  have h1 := urlsplitCore_relative s d hc hss
  constructor <;>
    · simp only [urlparse, urlsplit, hclean, hd, h1]
      split <;> rfl

/-- Shape of `pathFix`: the empty path or a `/`-headed one. -/
theorem pathFix_shape (p : Str) :
    pathFix p = [] ∨ ∃ t, pathFix p = '/' :: t := by
  unfold pathFix
  split
  · exact Or.inl rfl
  · exact Or.inr ⟨_, rfl⟩
  · exact Or.inr ⟨_, rfl⟩

/-- Reassembling an `https` URL with a nonempty netloc yields
`https://<netloc>` followed by a legal tail (path, query or fragment). -/
theorem urlunsplit_https_shape (n path query frag : Str) (hn : n ≠ []) :
    ∃ rest, urlunsplit ⟨str "https", n, path, query, frag⟩ =
      str "https://" ++ n ++ rest ∧ delimTail rest := by
  have hcat : ∀ X : Str, str "https" ++ ':' :: '/' :: '/' :: X =
      str "https://" ++ X := fun _ => rfl
  have hsch : (str "https") ≠ ([] : Str) := by decide
  refine ⟨pathFix path ++ (if query = [] then [] else '?' :: query) ++
      (if frag = [] then [] else '#' :: frag), ?_, ?_⟩
  · simp only [urlunsplit]
    rw [if_pos (Or.inl hn), if_pos hsch]
    by_cases hq : query = [] <;> by_cases hf : frag = []
    · rw [if_neg (fun hh => hh hf), if_neg (fun hh => hh hq), hcat]
      simp [hq, hf, List.append_assoc]
    · rw [if_pos hf, if_neg (fun hh => hh hq), hcat]
      simp [hq, hf, List.append_assoc]
    · rw [if_neg (fun hh => hh hf), if_pos hq, hcat]
      simp [hq, hf, List.append_assoc]
    · rw [if_pos hf, if_pos hq, hcat]
      simp [hq, hf, List.append_assoc]
  · rcases pathFix_shape path with hp | ⟨t, hp⟩
    · by_cases hq : query = [] <;> by_cases hf : frag = []
      · exact Or.inl (by simp [hp, hq, hf])
      · refine Or.inr ⟨'#', frag, by simp [hp, hq, hf], Or.inr (Or.inr rfl)⟩
      · refine Or.inr ⟨'?', query, by simp [hp, hq, hf], Or.inr (Or.inl rfl)⟩
      · refine Or.inr ⟨'?', query ++ '#' :: frag, by simp [hp, hq, hf],
          Or.inr (Or.inl rfl)⟩
    · refine Or.inr ⟨'/', t ++ (if query = [] then [] else '?' :: query) ++
        (if frag = [] then [] else '#' :: frag), by simp [hp, List.append_assoc],
        Or.inl rfl⟩

/-- Version of `urlunsplit_https_shape` for `urlunparse` (params are folded into
the path before reassembly, preserving the shape). -/
theorem urlunparse_https_shape (n path params query frag : Str) (hn : n ≠ []) :
    ∃ rest, urlunparse ⟨str "https", n, path, params, query, frag⟩ =
      str "https://" ++ n ++ rest ∧ delimTail rest := by
  unfold urlunparse
  exact urlunsplit_https_shape n _ query frag hn

/-- C2 (amended): for a relative candidate — colon-free, not
protocol-relative, clean of the characters `urlsplit` strips — and a base that
parses as an `https` URL with a nonempty host, `resolve_url` produces an
absolute URL of the form `https://<base-host><tail>` where the tail is empty or
starts with a path/query/fragment delimiter: the result shares the base's
scheme and host.  (A relative candidate *containing* the substring `https://`
escapes this: see `C2_counterexample`.) -/
theorem C2_relative_resolution (base url : Str)
    (hb0 : base ≠ []) (hu0 : url ≠ [])
    (hbs : (urlparse base []).scheme = str "https")
    (hbn : (urlparse base []).netloc ≠ [])
    (huc : sanitizeUrl url = url)
    (hc : ':' ∉ url)
    (hss : leadsWith ['/', '/'] url = false) :
    ∃ rest, resolve_url base url =
      str "https://" ++ (urlparse base []).netloc ++ rest ∧ delimTail rest := by
  have hsub : subIn httpsMarker url = false := subIn_false_of_no_colon url hc
  have hcomp := urlparse_relative_components url (str "https") hc hss huc
    (by decide)
  have hres : resolve_url base url =
      urljoinCore (urlparse base []) (urlparse url (urlparse base []).scheme)
        url := by
    simp [resolve_url, hsub, urljoin, hb0, hu0]
  rw [hres, hbs]
  rcases hU : urlparse url (str "https") with ⟨us, un, up, upr, uq, uf⟩
  rw [hU] at hcomp
  obtain ⟨hus, hun⟩ := hcomp
  simp only at hus hun
  subst hus
  subst hun
  rcases hB : urlparse base [] with ⟨bs, bn, bp, bpr, bq, bf⟩
  rw [hB] at hbs hbn
  simp only at hbs hbn
  subst hbs
  simp only [urljoinCore]
  rw [if_neg (show ¬(str "https" ≠ str "https" ∨ str "https" ∉ uses_relative)
        by decide),
      if_neg (show ¬(str "https" ∈ uses_netloc ∧ ([] : Str) ≠ [])
        by decide)]
  simp only [if_pos (show str "https" ∈ uses_netloc by decide)]
  by_cases hpp : up = [] ∧ upr = []
  · rw [if_pos hpp]
    exact urlunparse_https_shape bn bp bpr (if uq = [] then bq else uq) uf hbn
  · rw [if_neg hpp]
    exact urlunparse_https_shape bn (mergePaths bp up) upr uq uf hbn

/-- Witness for `C2_relative_resolution` at a concrete input (the doctest case
of `resolve_url`, shortened). -/
theorem C2_relative_resolution_witness :
    (str "https://h/p/" ≠ ([] : Str)) ∧ (str "a.jpg" ≠ ([] : Str)) ∧
    (urlparse (str "https://h/p/") []).scheme = str "https" ∧
    (urlparse (str "https://h/p/") []).netloc ≠ [] ∧
    sanitizeUrl (str "a.jpg") = str "a.jpg" ∧
    (':' ∉ str "a.jpg") ∧
    leadsWith ['/', '/'] (str "a.jpg") = false ∧
    (∃ rest, resolve_url (str "https://h/p/") (str "a.jpg") =
      str "https://" ++ (urlparse (str "https://h/p/") []).netloc ++ rest ∧
      delimTail rest) :=
  ⟨by decide, by decide, by decide, by decide, by decide, by decide, by decide,
   C2_relative_resolution (str "https://h/p/") (str "a.jpg") (by decide)
     (by decide) (by decide) (by decide) (by decide) (by decide) (by decide)⟩

/-- C2, counterexample to the claim as stated: the relative candidate
`b?u=https://c.d` (a relative path with a query string that mentions another
URL) contains the substring `https://`, so `resolve_url` returns it unchanged:
the result has no scheme and no host at all, while the base has host
`example.com`. -/
theorem C2_counterexample :
    resolve_url (str "https://example.com/a/") (str "b?u=https://c.d") =
      str "b?u=https://c.d" ∧
    (urlsplit (str "b?u=https://c.d") []).scheme = [] ∧
    (urlsplit (str "b?u=https://c.d") []).netloc = [] ∧
    (urlsplit (str "https://example.com/a/") []).netloc = str "example.com" := by
  refine ⟨by decide, by decide, by decide, by decide⟩

/-- C7 (amended): the collected report inputs are exactly the successful
downloads (failed ones contribute neither a path nor bytes), and the byte total
is the sum of `os.stat` sizes of the collected paths on the *final* filesystem.
When all derived filenames are nonempty and pairwise distinct this equals the
sum of the content sizes actually written per download; when two downloads
share a filename the stat-based total double-counts the surviving content
instead (see `C7_counterexample`). -/
theorem C7_report_totals (urls : List Str) (respOf : Str → Option Response)
    (destination : Str) (fs : Fs) :
    (crawlFiles urls respOf destination fs).1 =
      ((writePlan respOf destination urls).map Prod.fst).filter
        (fun p => !p.isEmpty) ∧
    ((∀ p ∈ (writePlan respOf destination urls).map Prod.fst, p ≠ []) →
      ((writePlan respOf destination urls).map Prod.fst).Nodup →
      crawlBytesTotal urls respOf destination fs =
        ((writePlan respOf destination urls).map (fun w => w.2.length)).sum) := by
  have hda := downloadAll_eq_plan respOf destination urls fs
  constructor
  · show (downloadAll respOf destination urls fs).1 = _
    rw [hda]
  · intro hne hnd
    have hfilter : ((writePlan respOf destination urls).map Prod.fst).filter
        (fun p => !p.isEmpty) = (writePlan respOf destination urls).map Prod.fst := by
      apply List.filter_eq_self.mpr
      intro p hp
      simp [List.isEmpty_iff, hne p hp]
    show ((downloadAll respOf destination urls fs).1.map
        (statSize (downloadAll respOf destination urls fs).2)).sum = _
    rw [hda]
    simp only
    rw [hfilter, List.map_map]
    apply congrArg List.sum
    apply List.map_congr_left
    intro w hw
    show statSize (applyWrites fs (writePlan respOf destination urls)) w.1 =
      w.2.length
    unfold statSize
    rw [applyWrites_read, lastWrite_unique _ w hnd hw]
    rfl

/-- Witness for `C7_report_totals` at a concrete input: two successful
downloads with distinct filenames. -/
theorem C7_report_totals_witness :
    (∀ p ∈ (writePlan
        (fun u => if u = str "https://h/a.bin" then some ⟨200, [1], []⟩
                  else some ⟨200, [2, 2], []⟩) (str "d")
        [str "https://h/a.bin", str "https://h/b.bin"]).map Prod.fst, p ≠ []) ∧
    ((writePlan
        (fun u => if u = str "https://h/a.bin" then some ⟨200, [1], []⟩
                  else some ⟨200, [2, 2], []⟩) (str "d")
        [str "https://h/a.bin", str "https://h/b.bin"]).map Prod.fst).Nodup ∧
    crawlBytesTotal [str "https://h/a.bin", str "https://h/b.bin"]
        (fun u => if u = str "https://h/a.bin" then some ⟨200, [1], []⟩
                  else some ⟨200, [2, 2], []⟩) (str "d") (fun _ => none) =
      ((writePlan
        (fun u => if u = str "https://h/a.bin" then some ⟨200, [1], []⟩
                  else some ⟨200, [2, 2], []⟩) (str "d")
        [str "https://h/a.bin", str "https://h/b.bin"]).map
          (fun w => w.2.length)).sum :=
  ⟨by decide, by decide,
   (C7_report_totals [str "https://h/a.bin", str "https://h/b.bin"]
      (fun u => if u = str "https://h/a.bin" then some ⟨200, [1], []⟩
                else some ⟨200, [2, 2], []⟩) (str "d") (fun _ => none)).2
     (by decide) (by decide)⟩

/-- C7, counterexample to the claim as stated: two successful downloads whose
URLs share the final segment `f.bin` clobber each other; the report's stat-based
byte total (4) is not the sum of the content sizes actually written per
download (1 + 2 = 3). -/
theorem C7_counterexample :
    (crawlFiles [str "https://h/a/f.bin", str "https://h/b/f.bin"]
        (fun u => if u = str "https://h/a/f.bin" then some ⟨200, [0], []⟩
                  else some ⟨200, [0, 0], []⟩) (str "d")
        (fun _ => none)).1.length = 2 ∧
    crawlBytesTotal [str "https://h/a/f.bin", str "https://h/b/f.bin"]
        (fun u => if u = str "https://h/a/f.bin" then some ⟨200, [0], []⟩
                  else some ⟨200, [0, 0], []⟩) (str "d") (fun _ => none) ≠
      ((writePlan
        (fun u => if u = str "https://h/a/f.bin" then some ⟨200, [0], []⟩
                  else some ⟨200, [0, 0], []⟩) (str "d")
        [str "https://h/a/f.bin", str "https://h/b/f.bin"]).map
          (fun w => w.2.length)).sum := by
  refine ⟨by decide, by decide⟩

/-- C9 (amended): when all derived filenames are pairwise distinct, the
stat-based byte total is the same for every admissible completion order of the
pool's writes — in particular parallelism above 1 agrees with the sequential
order.  (The collected path list, hence the success count, is fixed by
`executor.map` independently of the order.)  When filenames collide the totals
can differ between orders (see `C9_counterexample`). -/
theorem C9_parallel_byte_total (urls : List Str) (respOf : Str → Option Response)
    (destination : Str) (fs : Fs) (order : List (Str × Bytes))
    (hperm : order.Perm (writePlan respOf destination urls))
    (hnd : ((writePlan respOf destination urls).map Prod.fst).Nodup) :
    crawlBytesWithOrder urls respOf destination fs order =
      crawlBytesWithOrder urls respOf destination fs
        (writePlan respOf destination urls) := by
  unfold crawlBytesWithOrder
  apply congrArg List.sum
  apply List.map_congr_left
  intro p hp
  unfold statSize
  rw [applyWrites_perm order (writePlan respOf destination urls) fs hperm hnd p]

/-- Witness for `C9_parallel_byte_total` at a concrete input: two distinct
filenames, with the parallel completion order swapped relative to dispatch
order. -/
theorem C9_parallel_byte_total_witness :
    ([(str "d/b.bin", ([6, 6] : Bytes)), (str "d/a.bin", [5])]).Perm
      (writePlan
        (fun u => if u = str "https://h/a.bin" then some ⟨200, [5], []⟩
                  else some ⟨200, [6, 6], []⟩) (str "d")
        [str "https://h/a.bin", str "https://h/b.bin"]) ∧
    crawlBytesWithOrder [str "https://h/a.bin", str "https://h/b.bin"]
        (fun u => if u = str "https://h/a.bin" then some ⟨200, [5], []⟩
                  else some ⟨200, [6, 6], []⟩) (str "d") (fun _ => none)
        [(str "d/b.bin", [6, 6]), (str "d/a.bin", [5])] =
      crawlBytesWithOrder [str "https://h/a.bin", str "https://h/b.bin"]
        (fun u => if u = str "https://h/a.bin" then some ⟨200, [5], []⟩
                  else some ⟨200, [6, 6], []⟩) (str "d") (fun _ => none)
        (writePlan
          (fun u => if u = str "https://h/a.bin" then some ⟨200, [5], []⟩
                    else some ⟨200, [6, 6], []⟩) (str "d")
          [str "https://h/a.bin", str "https://h/b.bin"]) :=
  ⟨by decide,
   C9_parallel_byte_total [str "https://h/a.bin", str "https://h/b.bin"]
     (fun u => if u = str "https://h/a.bin" then some ⟨200, [5], []⟩
               else some ⟨200, [6, 6], []⟩) (str "d") (fun _ => none)
     [(str "d/b.bin", [6, 6]), (str "d/a.bin", [5])] (by decide) (by decide)⟩

/-- C9, counterexample to the claim as stated: with two URLs whose filenames
collide, the sequential order (parallelism 1) reports 4 bytes, while an
admissible parallel completion order (parallelism 2, second write finishing
first) reports 2 — the totals differ. -/
theorem C9_counterexample :
    ([(str "d/f.bin", ([0, 0] : Bytes)), (str "d/f.bin", [0])]).Perm
      (writePlan
        (fun u => if u = str "https://h/a/f.bin" then some ⟨200, [0], []⟩
                  else some ⟨200, [0, 0], []⟩) (str "d")
        [str "https://h/a/f.bin", str "https://h/b/f.bin"]) ∧
    crawlBytesWithOrder [str "https://h/a/f.bin", str "https://h/b/f.bin"]
        (fun u => if u = str "https://h/a/f.bin" then some ⟨200, [0], []⟩
                  else some ⟨200, [0, 0], []⟩) (str "d") (fun _ => none)
        [(str "d/f.bin", [0, 0]), (str "d/f.bin", [0])] = 2 ∧
    crawlBytesWithOrder [str "https://h/a/f.bin", str "https://h/b/f.bin"]
        (fun u => if u = str "https://h/a/f.bin" then some ⟨200, [0], []⟩
                  else some ⟨200, [0, 0], []⟩) (str "d") (fun _ => none)
        (writePlan
          (fun u => if u = str "https://h/a/f.bin" then some ⟨200, [0], []⟩
                    else some ⟨200, [0, 0], []⟩) (str "d")
          [str "https://h/a/f.bin", str "https://h/b/f.bin"]) = 4 := by
  refine ⟨by decide, by decide, by decide⟩

/-- C8 (confirmed): the extraction loop yields exactly the concatenation, in
tag-iteration order, of the concatenation, in rule order, of the matches of
each rule in first-match-first order, each resolved against the page URL — and
performs no deduplication: a resource matched by two rules appears twice, as
the concrete page body here shows. -/
theorem C8_extract_order :
    (∀ url data tags, (∀ t ∈ tags, (regexLookup t).isSome) →
      extractLoop url data tags =
        (tags.flatMap (fun t => ((regexLookup t).getD []).flatMap
          (fun r => (findall r data).map (resolve_url url))), none)) ∧
    extract_urls (str "https://h/p/") [str "jpg"]
      (some ⟨200, [], str "<img src=\"a.jpg\"><a href=\"a.jpg\">"⟩) =
      ([str "https://h/p/a.jpg", str "https://h/p/a.jpg"], none) := by
  constructor
  · intro url data tags h
    induction tags with
    | nil => rfl
    | cons t ts ih =>
      obtain ⟨rules, hrl⟩ := Option.isSome_iff_exists.mp
        (h t (List.mem_cons_self t ts))
      have hts : ∀ x ∈ ts, (regexLookup x).isSome :=
        fun x hx => h x (List.mem_cons_of_mem _ hx)
      simp [extractLoop, hrl, ih hts, List.flatMap_cons]
  · decide

/-- Witness for the quantified part of `C8_extract_order` at a concrete
input. -/
theorem C8_extract_order_witness :
    (∀ t ∈ [str "pdf"], (regexLookup t).isSome) ∧
    extractLoop (str "https://h/") (str "") [str "pdf"] =
      ([str "pdf"].flatMap (fun t => ((regexLookup t).getD []).flatMap
        (fun r => (findall r (str "")).map (resolve_url (str "https://h/")))),
       none) :=
  ⟨by decide, C8_extract_order.1 (str "https://h/") (str "") [str "pdf"]
    (by decide)⟩

/-- C10 (confirmed): after a successful page fetch, iterating the extraction
generator aborts with `KeyError` on the first requested tag missing from
`FILE_REGEX` — in particular, any requested tag outside the catalog makes the
iteration raise rather than yield an empty result, so the core is total only
for pre-validated tags. -/
theorem C10_invalid_tag_keyerror (url : Str) (fileTypes : List Str)
    (r : Response) (h : ¬ statusError r.status) :
    (extract_urls url fileTypes (some r)).2 =
      fileTypes.find? (fun t => (regexLookup t).isNone) ∧
    (∀ t ∈ fileTypes, regexLookup t = none →
      ((extract_urls url fileTypes (some r)).2).isSome = true) := by
  have hmain : (extract_urls url fileTypes (some r)).2 =
      fileTypes.find? (fun t => (regexLookup t).isNone) := by
    have h2 : extract_urls url fileTypes (some r) = extractLoop url r.text fileTypes := by
      simp [extract_urls, h]
    rw [h2]
    exact extractLoop_snd url r.text fileTypes
  refine ⟨hmain, fun t ht hnone => ?_⟩
  rw [hmain]
  rw [List.find?_isSome]
  exact ⟨t, ht, by simp [hnone]⟩

/-- Witness for `C10_invalid_tag_keyerror` at a concrete input: tag `gif` is
outside the catalog, so iteration raises `KeyError: gif`. -/
theorem C10_invalid_tag_keyerror_witness :
    ¬ statusError 200 ∧
    (extract_urls (str "https://h/") [str "gif"]
      (some ⟨200, [], str ""⟩)).2 = some (str "gif") := by
  refine ⟨by decide, ?_⟩
  have h := (C10_invalid_tag_keyerror (str "https://h/") [str "gif"]
    ⟨200, [], str ""⟩ (by decide)).1
  rw [h]
  decide

end Miles
